import Mathlib

/-!
# wechatpay-notify-gateway: the `/notify` handler

A shallow embedding of `src/main.go`: the `POST /notify` handler registered in
`main`, the helper `forwardRequest`, and the part of `main` that runs before
the listener is started.

The program is a thin layer over libraries (fiber, fasthttp, resty, koanf,
wechatpay-go and Go's `net/url`).  Library calls whose result depends on the
outside world (signature verification, the network, the file system) are
fields of `Env`, `Client` and `Boot`.  Library calls that are pure functions
of their arguments (`c.Res().Status`, `JSON`, `SendStatus`,
`url.ParseRequestURI`) are modelled by the definitions of the namespaces
`fiber`, `fasthttp` and `url`, each with the library function it stands for
named in its comment.  The check `net/url` makes of an authority is a field
of `Env`, so that the theorems hold for every such check; `url.parseAuthority`
models the check Go makes.
-/

namespace Gateway

/-- Go `error` value: `none` is `nil`, `some msg` is an error whose `Error()`
text is `msg`. -/
abbrev error := Option String

/-- Header set, Go `map[string][]string`. -/
abbrev Header := List (String × List String)

/-- Equality of Go result pairs `(value, err)` is decidable. -/
instance instDecidableEqExcept {ε α : Type} [DecidableEq ε] [DecidableEq α] :
    DecidableEq (Except ε α)
  | .ok a, .ok b =>
    if h : a = b then isTrue (congrArg Except.ok h) else isFalse (fun h2 => h (Except.ok.inj h2))
  | .error a, .error b =>
    if h : a = b then isTrue (congrArg Except.error h)
    else isFalse (fun h2 => h (Except.error.inj h2))
  | .ok _, .error _ => isFalse (fun h => Except.noConfusion h)
  | .error _, .ok _ => isFalse (fun h => Except.noConfusion h)

/-! ## net/url -/

namespace url

/-- Byte range test `lo <= c && c <= hi`. -/
def between (lo hi c : Char) : Bool :=
  decide (lo.toNat ≤ c.toNat) && decide (c.toNat ≤ hi.toNat)

/-- Go `stringContainsCTLByte`: some byte is `< ' '` or is `0x7f`. -/
def stringContainsCTLByte (s : List Char) : Bool :=
  s.any (fun b => decide (b.toNat < 32) || decide (b.toNat = 127))

/-- Loop of Go `getScheme`; `i` is the index of the head of the third argument
in `rawURL`.  Returns `(scheme, path)` or the error. -/
def getSchemeFrom (rawURL : List Char) : Nat → List Char → Except String (List Char × List Char)
  | _, [] => .ok ([], rawURL)
  | i, c :: cs =>
    if between 'a' 'z' c || between 'A' 'Z' c then
      getSchemeFrom rawURL (i + 1) cs
    else if between '0' '9' c || c == '+' || c == '-' || c == '.' then
      if i == 0 then .ok ([], rawURL) else getSchemeFrom rawURL (i + 1) cs
    else if c == ':' then
      if i == 0 then .error "missing protocol scheme"
      else .ok (rawURL.take i, rawURL.drop (i + 1))
    else
      .ok ([], rawURL)

/-- Go `getScheme`. -/
def getScheme (rawURL : List Char) : Except String (List Char × List Char) :=
  getSchemeFrom rawURL 0 rawURL

/-- Go `ishex`. -/
def ishex (c : Char) : Bool :=
  between '0' '9' c || between 'a' 'f' c || between 'A' 'F' c

/-- Error result of Go `unescape(s, encodePath)`: in this mode the only
failure is a `%` that is not followed by two hexadecimal digits. -/
def unescapePath : List Char → error
  | [] => none
  | c :: cs =>
    if c == '%' then
      match cs with
      | a :: b :: rest =>
        if ishex a && ishex b then unescapePath rest
        else some "invalid URL escape"
      | _ => some "invalid URL escape"
    else unescapePath cs

/-- Error result of Go `(*URL).setPath`. -/
def setPath (p : List Char) : error := unescapePath p

/-- Error result of Go `url.parse(rawURL, viaRequest)`.  `parseAuthority` is
the error result of Go's function of that name (user info, host and port
validation), which is taken as a parameter. -/
def parse (parseAuthority : List Char → error) (rawURL : List Char) (viaRequest : Bool) : error :=
  if stringContainsCTLByte rawURL then some "net/url: invalid control character in URL"
  else if rawURL.isEmpty && viaRequest then some "empty url"
  else if rawURL == ['*'] then none
  else
    match getScheme rawURL with
    | .error err => some err
    | .ok (scheme, rest0) =>
      let rest :=
        if rest0.getLast? == some '?' && rest0.count '?' == 1 then rest0.dropLast
        else rest0.takeWhile (fun b => b != '?')
      if rest.head? != some '/' && !scheme.isEmpty then none
      else if rest.head? != some '/' && viaRequest then some "invalid URI for request"
      else if rest.head? != some '/'
          && (rest.takeWhile (fun b => b != '/')).contains ':' then
        some "first path segment in URL cannot contain colon"
      else if (!scheme.isEmpty || (!viaRequest && rest.take 3 != ['/', '/', '/']))
          && rest.take 2 == ['/', '/'] then
        let authority := (rest.drop 2).takeWhile (fun b => b != '/')
        let rest := (rest.drop 2).dropWhile (fun b => b != '/')
        match parseAuthority authority with
        | some err => some err
        | none => setPath rest
      else setPath rest

/-- Error result of Go `url.ParseRequestURI(rawURL)`: that of
`parse(rawURL, true)`.  (Go wraps a non-nil error in a `*url.Error`; the
wrapper changes the text of the error only, and the handler only tests the
error against `nil`.) -/
def ParseRequestURI (parseAuthority : List Char → error) (rawURL : String) : error :=
  parse parseAuthority rawURL.toList true

/-- Go `unhex`. -/
def unhex (c : Char) : Nat :=
  if between '0' '9' c then c.toNat - '0'.toNat
  else if between 'a' 'f' c then c.toNat - 'a'.toNat + 10
  else if between 'A' 'F' c then c.toNat - 'A'.toNat + 10
  else 0

/-- Go `shouldEscape(c, encodeHost)`: letters, digits, the sub-delimiters and
`: [ ] < > "` that a host may hold, and `- _ . ~` are not escaped; every
other byte is. -/
def shouldEscapeHost (c : Char) : Bool :=
  if between 'a' 'z' c || between 'A' 'Z' c || between '0' '9' c then false
  else if ['!', '$', '&', Char.ofNat 39, '(', ')', '*', '+', ',', ';', '=', ':', '[', ']',
      '<', '>', Char.ofNat 34].contains c then false
  else if ['-', '_', '.', '~'].contains c then false
  else true

/-- Error result of Go `unescape(s, encodeHost)`: a `%` must be followed by
two hexadecimal digits that encode a byte of `0x80` or more, or be `%25`; an
ASCII byte that `shouldEscape` would escape is an invalid host character. -/
def unescapeHost : List Char → error
  | [] => none
  | c :: cs =>
    if c == '%' then
      match cs with
      | a :: b :: rest =>
        if !(ishex a && ishex b) then some "invalid URL escape"
        else if decide (unhex a < 8) && [c, a, b] != ['%', '2', '5'] then
          some "invalid URL escape"
        else unescapeHost rest
      | _ => some "invalid URL escape"
    else if decide (c.toNat < 128) && shouldEscapeHost c then
      some "invalid character in host name"
    else unescapeHost cs

/-- Error result of Go `unescape(s, encodeZone)`: as for a host, but a `%`
escape may stand for a space or for any byte a host may hold unescaped. -/
def unescapeZone : List Char → error
  | [] => none
  | c :: cs =>
    if c == '%' then
      match cs with
      | a :: b :: rest =>
        if !(ishex a && ishex b) then some "invalid URL escape"
        else if [c, a, b] != ['%', '2', '5'] && unhex a * 16 + unhex b != 32
            && shouldEscapeHost (Char.ofNat (unhex a * 16 + unhex b)) then
          some "invalid URL escape"
        else unescapeZone rest
      | _ => some "invalid URL escape"
    else if decide (c.toNat < 128) && shouldEscapeHost c then
      some "invalid character in host name"
    else unescapeZone cs

/-- Go `validOptionalPort`: empty, or a colon followed by digits only. -/
def validOptionalPort : List Char → Bool
  | [] => true
  | c :: digits => c == ':' && digits.all (fun b => between '0' '9' b)

/-- Go `validUserinfo`. -/
def validUserinfo (s : List Char) : Bool :=
  s.all (fun r =>
    between 'A' 'Z' r || between 'a' 'z' r || between '0' '9' r
      || ['-', '.', '_', ':', '~', '!', '$', '&', Char.ofNat 39, '(', ')', '*', '+', ',', ';',
          '=', '%', '@'].contains r)

/-- Go `strings.LastIndex(s, sep)` for a separator of one byte, scanning from
index `i` with the last hit so far. -/
def lastIndexFrom (sep : Char) : Nat → Option Nat → List Char → Option Nat
  | _, found, [] => found
  | i, found, b :: bs => lastIndexFrom sep (i + 1) (if b == sep then some i else found) bs

/-- Go `strings.Index(s, sep)` for a non-empty separator, scanning from index
`i`. -/
def indexFrom (sep : List Char) : Nat → List Char → Option Nat
  | _, [] => none
  | i, b :: bs => if (b :: bs).take sep.length == sep then some i else indexFrom sep (i + 1) bs

/-- Error result of Go `parseHost`. -/
def parseHost (host : List Char) : error :=
  if host.head? == some '[' then
    match lastIndexFrom ']' 0 none host with
    | none => some "missing ']' in host"
    | some i =>
      if !validOptionalPort (host.drop (i + 1)) then some "invalid port after host"
      else
        match indexFrom ['%', '2', '5'] 0 (host.take i) with
        | some zone =>
          match unescapeHost (host.take zone) with
          | some err => some err
          | none =>
            match unescapeZone ((host.take i).drop zone) with
            | some err => some err
            | none => unescapeHost (host.drop i)
        | none => unescapeHost host
  else
    match lastIndexFrom ':' 0 none host with
    | some i =>
      if !validOptionalPort (host.drop i) then some "invalid port after host"
      else unescapeHost host
    | none => unescapeHost host

/-- Error result of Go `parseAuthority`, as it stands in Go 1.24: the host
after the last `@` is checked by `parseHost`, the user information before it
by `validUserinfo` and, for its percent escapes, as a path is. -/
def parseAuthority (authority : List Char) : error :=
  match lastIndexFrom '@' 0 none authority with
  | none => parseHost authority
  | some i =>
    match parseHost (authority.drop (i + 1)) with
    | some err => some err
    | none =>
      if !validUserinfo (authority.take i) then some "net/url: invalid userinfo"
      else if !(authority.take i).contains ':' then unescapePath (authority.take i)
      else
        match unescapePath ((authority.take i).takeWhile (fun b => b != ':')) with
        | some err => some err
        | none => unescapePath (((authority.take i).dropWhile (fun b => b != ':')).drop 1)

/-- A scheme as `getScheme` reads one: a letter, then letters, digits, `+`,
`-` or `.`. -/
def validScheme : List Char → Bool
  | [] => false
  | s :: ss =>
    (between 'a' 'z' s || between 'A' 'Z' s)
      && ss.all (fun b => between 'a' 'z' b || between 'A' 'Z' b
          || (between '0' '9' b || b == '+' || b == '-' || b == '.'))

end url

/-! ## fasthttp and fiber: the response under construction -/

/-- Body of an HTTP response.  `text s` is the byte string `s`; `json m` is
the encoding of the `fiber.Map` literal `m` by the JSON encoder of the
application (the default one, `encoding/json`, since `main` configures
none). -/
inductive Payload where
  | text (s : String)
  | json (m : List (String × String))
  deriving DecidableEq, Repr

/-- Go `len(body) == 0`: the encoding of a map is never empty. -/
def Payload.isEmpty : Payload → Bool
  | .text s => s.isEmpty
  | .json _ => false

/-- The `fasthttp.Response` of a request context: status code and body.  A
fresh response has status 200 and an empty body. -/
structure Response where
  StatusCode : Nat := 200
  Body : Payload := .text ""
  deriving DecidableEq, Repr

/-- The `fiber.Ctx` of one inbound request: what `c.Body()` and
`c.GetReqHeaders()` return, and the response under construction. -/
structure Ctx where
  Body : String
  ReqHeaders : Header
  Response : Response := {}
  deriving DecidableEq, Repr

namespace fiber

def StatusNoContent : Nat := 204
def StatusInternalServerError : Nat := 500
def StatusBadGateway : Nat := 502

/-- Status texts of fiber `utils.StatusMessage` for the codes the program
uses; the other codes are not reproduced. -/
def StatusMessage (status : Nat) : String :=
  if status = 204 then "No Content"
  else if status = 500 then "Internal Server Error"
  else if status = 502 then "Bad Gateway"
  else ""

/-- Models `c.Res().Status(status)`: sets the status code of the response. -/
def Status (c : Ctx) (status : Nat) : Ctx :=
  { c with Response := { c.Response with StatusCode := status } }

/-- Models `JSON(data)` for a `fiber.Map` of strings: the encoder cannot fail
on such a map, so the body becomes the encoding and the returned error is
`nil`. -/
def JSON (c : Ctx) (data : List (String × String)) : Ctx × error :=
  ({ c with Response := { c.Response with Body := .json data } }, none)

/-- Models `c.SendString(body)`: sets the body, returns `nil`. -/
def SendString (c : Ctx) (body : String) : Ctx × error :=
  ({ c with Response := { c.Response with Body := .text body } }, none)

/-- Models `c.SendStatus(status)`: sets the status code, and sets the body to
the status text only when the response has no body yet. -/
def SendStatus (c : Ctx) (status : Nat) : Ctx × error :=
  let c := Status c status
  if c.Response.Body.isEmpty then SendString c (StatusMessage status)
  else (c, none)

/-- Models fiber `DefaultErrorHandler`, which the application runs when a
handler returns a non-nil error that is not a `*fiber.Error`: status 500
with the text of the error as body. -/
def DefaultErrorHandler (c : Ctx) (err : String) : Ctx :=
  (SendString (Status c StatusInternalServerError) err).1

end fiber

namespace fasthttp

/-- Models fasthttp `mustSkipContentLength`: responses with a 1xx, 204 or 304
status are written without a body. -/
def mustSkipBody (statusCode : Nat) : Bool :=
  if statusCode < 100 || statusCode == 200 then false
  else statusCode == 304 || statusCode == 204 || decide (statusCode < 200)

/-- The response as fasthttp writes it to the connection. -/
def written (r : Response) : Response :=
  if mustSkipBody r.StatusCode then { r with Body := .text "" } else r

end fasthttp

/-! ## resty: the outbound client -/

namespace resty

/-- A resty request as `forwardRequest` builds and sends it. -/
structure Request where
  Method : String
  URL : String
  Body : String
  Header : Header
  deriving DecidableEq, Repr

/-- A resty response seen through its accessors `StatusCode()` and
`String()`. -/
structure Response where
  StatusCode : Nat
  String : String
  deriving DecidableEq, Repr

/-- One executed request with its final result `(resp, err)`: the error of the
transport, or the response of the target. -/
structure Exchange where
  request : Request
  result : Except String Response
  deriving DecidableEq, Repr

/-- The resty client together with the network behind it.  `transport` is the
final result of executing a request (after the retries the client makes on
its own), given the exchanges made before it; `issued` is the log of the
exchanges made so far, oldest first. -/
structure Client where
  transport : List Exchange → Request → Except String Response
  issued : List Exchange := []

/-- Models `request.Post(url)` on a request with the given body and headers. -/
def Post (client : Client) (body : String) (header : Header) (url : String) :
    Client × Except String Response :=
  let request : Request := { Method := "POST", URL := url, Body := body, Header := header }
  let result := client.transport client.issued request
  ({ client with issued := client.issued ++ [{ request := request, result := result }] }, result)

end resty

/-! ## wechatpay-go and the fiber adaptor -/

/-- The `*http.Request` that `adaptor.ConvertRequest` builds from the fiber
context. -/
structure HttpRequest where
  Body : String
  Header : Header
  deriving DecidableEq, Repr

/-- The field of `payments.Transaction` that the handler reads.  `Attach` is a
Go `*string`: `none` is the nil pointer, which a notification without an
`attach` member leaves. -/
structure Transaction where
  Attach : Option String
  deriving DecidableEq, Repr

/-- The `*notify.Handler` that `notify.NewRSANotifyHandler` returns, seen
through `ParseNotifyRequest(ctx, req, transaction)`: the error, or the
transaction it filled in. -/
structure WechatHandler where
  ParseNotifyRequest : HttpRequest → Except String Transaction

/-- Library calls of the handler whose code is outside the repository, as
functions of their arguments: `adaptor.ConvertRequest(c, true)` and
`parseAuthority` of `net/url`. -/
structure Env where
  ConvertRequest : Ctx → Except String HttpRequest
  parseAuthority : List Char → error

/-! ## The program -/

/-- Go `forwardRequest` (main.go, lines 93 to 113).  Returns the client with its
log, the context with its response, and the returned error. -/
def forwardRequest (client : resty.Client) (c : Ctx) (targetURL : String) :
    resty.Client × Ctx × error :=
  match resty.Post client c.Body c.ReqHeaders targetURL with
  | (client, .error err) =>
    let (c, e) := fiber.JSON (fiber.Status c fiber.StatusInternalServerError)
      [("code", "FAIL"), ("message", "failed to forward request: " ++ err)]
    (client, c, e)
  | (client, .ok resp) =>
    if resp.StatusCode ≥ 400 then
      let (c, e) := fiber.JSON (fiber.Status c fiber.StatusBadGateway)
        [("code", "FAIL"),
         ("message", "target server responded with status " ++ toString resp.StatusCode
            ++ ": " ++ resp.String)]
      (client, c, e)
    else
      (client, c, none)

/-- The loop `for _, forward := range forwards` of the handler (lines 74 to
78): the loop is left at the first `forwardRequest` that returns a non-nil
error, with that error; the result is `nil` when the loop runs to its end. -/
def forwardEach (client : resty.Client) (c : Ctx) :
    List String → resty.Client × Ctx × error
  | [] => (client, c, none)
  | forward :: rest =>
    match forwardRequest client c forward with
    | (client, c, some err) => (client, c, some err)
    | (client, c, none) => forwardEach client c rest

/-- How a run of the handler ends: it returns a Go error (possibly `nil`) to
fiber, or it panics. -/
inductive Completion where
  | returned (err : error)
  | panicked (msg : String)
  deriving DecidableEq, Repr

/-- One run of the handler: the client (with the log of forwards), the
context (with the response) and the way the run ended. -/
structure Run where
  client : resty.Client
  c : Ctx
  completion : Completion

/-- The `POST /notify` handler (main.go, lines 51 to 82), a closure over
`wechatHandler`, `client` and `forwards`. -/
def notify (env : Env) (wechatHandler : WechatHandler) (client : resty.Client)
    (forwards : List String) (c : Ctx) : Run :=
  match env.ConvertRequest c with
  | .error err =>
    let (c, e) := fiber.JSON (fiber.Status c fiber.StatusInternalServerError)
      [("code", "FAIL"), ("message", err)]
    { client := client, c := c, completion := .returned e }
  | .ok req =>
    match wechatHandler.ParseNotifyRequest req with
    | .error err =>
      let (c, e) := fiber.JSON (fiber.Status c fiber.StatusInternalServerError)
        [("code", "FAIL"), ("message", err)]
      { client := client, c := c, completion := .returned e }
    | .ok transaction =>
      match transaction.Attach with
      | none =>
        { client := client, c := c,
          completion := .panicked "runtime error: invalid memory address or nil pointer dereference" }
      | some attach =>
        let (client, c, err) :=
          match url.ParseRequestURI env.parseAuthority attach with
          | none => forwardRequest client c attach
          | some _ => forwardEach client c forwards
        match err with
        | some err => { client := client, c := c, completion := .returned (some err) }
        | none =>
          let (c, e) := fiber.SendStatus c fiber.StatusNoContent
          { client := client, c := c, completion := .returned e }

/-- The response the provider receives: none when the handler panicked (no
recover middleware is installed, so the panic ends the process); the
response the error handler of fiber makes when the handler returned a non-nil
error; otherwise the response the handler built.  In each case as fasthttp
writes it. -/
def Run.reply (r : Run) : Option Response :=
  match r.completion with
  | .panicked _ => none
  | .returned (some err) => some (fasthttp.written (fiber.DefaultErrorHandler r.c err).Response)
  | .returned none => some (fasthttp.written r.c.Response)

/-- A forward succeeded: no transport error and a response status below 400. -/
def succeeded : Except String resty.Response → Bool
  | .error _ => false
  | .ok resp => decide (resp.StatusCode < 400)

/-- The request `forwardRequest` sends to `targetURL` for the inbound request
of `c`. -/
def forwarded (c : Ctx) (targetURL : String) : resty.Request :=
  { Method := "POST", URL := targetURL, Body := c.Body, Header := c.ReqHeaders }

/-! ## Startup -/

/-- The koanf configuration after `config.Load`, seen through the getters
`main` uses: `Str` for `config.String` (empty when the key is unset), `Flag`
for `config.Bool`, and `Strings` (empty when the key is unset). -/
structure Config where
  Str : String → String
  Flag : String → Bool
  Strings : String → List String

/-- koanf `MustString`: the value of the key, a panic when it is empty. -/
def Config.MustString (config : Config) (path : String) : Except String String :=
  if config.Str path = "" then .error ("invalid value: " ++ path ++ "=")
  else .ok (config.Str path)

/-- What `main` finds outside the program: the result of loading
`config.yml`, of `utils.LoadPublicKey` on a path, of
`notify.NewRSANotifyHandler` on the API v3 key and the verifier made from
key identifier and public key, of `app.Listen` on an address (`nil` while
the listener serves), the client `resty.New()` returns, and the library
calls of the handler. -/
structure Boot where
  Load : Except String Config
  LoadPublicKey : String → Except String String
  NewRSANotifyHandler : String → String → String → Except String WechatHandler
  Listen : String → error
  client : resty.Client
  env : Env

/-- The application `main` serves once the listener is up: the values the
handler closes over, and the address. -/
structure Server where
  env : Env
  wechatHandler : WechatHandler
  client : resty.Client
  forwards : List String
  address : String

/-- The handler of the served application on one inbound request. -/
def Server.handle (srv : Server) (c : Ctx) : Run :=
  notify srv.env srv.wechatHandler srv.client srv.forwards c

/-- How `main` goes: it ends in `log.Fatal`, it panics, or it serves. -/
inductive Startup where
  | fatal (msg : String)
  | panicked (msg : String)
  | serving (srv : Server)

/-- Go `main` (main.go, lines 22 to 91). -/
def main (boot : Boot) : Startup :=
  match boot.Load with
  | .error err => .fatal ("failed to load config: " ++ err)
  | .ok config =>
    match config.MustString "wechat.publicKey" with
    | .error p => .panicked p
    | .ok path =>
      match boot.LoadPublicKey path with
      | .error err => .fatal ("failed to load wechat pay publicKey: " ++ err)
      | .ok wechatPublicKey =>
        match config.MustString "wechat.apiV3Key" with
        | .error p => .panicked p
        | .ok apiV3Key =>
          match config.MustString "wechat.publicKeyID" with
          | .error p => .panicked p
          | .ok publicKeyID =>
            match boot.NewRSANotifyHandler apiV3Key publicKeyID wechatPublicKey with
            | .error err => .fatal ("failed to create wechat pay notify handler: " ++ err)
            | .ok wechatHandler =>
              let client := boot.client
              let forwards := config.Strings "forwards"
              match config.MustString "address" with
              | .error p => .panicked p
              | .ok address =>
                match boot.Listen address with
                | some err => .fatal ("failed to start server: " ++ err)
                | none =>
                  .serving { env := boot.env, wechatHandler := wechatHandler, client := client,
                             forwards := forwards, address := address }

/-- The accepted application, if `main` got as far as serving. -/
def Startup.server? : Startup → Option Server
  | .serving srv => some srv
  | _ => none

/-- The configuration with the list under `key` replaced. -/
def Config.withStrings (config : Config) (key : String) (value : List String) : Config :=
  { config with Strings := fun k => if k = key then value else config.Strings k }

/-- The same surroundings with the `forwards` list of `config.yml` replaced. -/
def Boot.withForwards (boot : Boot) (forwards : List String) : Boot :=
  { boot with Load := boot.Load.map (fun config => config.withStrings "forwards" forwards) }

/-! ## Inputs used in the examples -/

/-- Library surroundings in which the conversion of the request succeeds and
every authority is accepted. -/
def demoEnv : Env :=
  { ConvertRequest := fun c => .ok { Body := c.Body, Header := c.ReqHeaders },
    parseAuthority := fun _ => none }

/-- Library surroundings in which the conversion of the request succeeds and
authorities are checked as Go's `parseAuthority` checks them. -/
def netEnv : Env :=
  { ConvertRequest := fun c => .ok { Body := c.Body, Header := c.ReqHeaders },
    parseAuthority := url.parseAuthority }

/-- A verifier that accepts the request and yields a transaction with the
given `Attach`. -/
def verifiedWith (attach : Option String) : WechatHandler :=
  { ParseNotifyRequest := fun _ => .ok { Attach := attach } }

/-- A verifier that rejects the request with the given error. -/
def rejecting (err : String) : WechatHandler :=
  { ParseNotifyRequest := fun _ => .error err }

/-- An inbound request. -/
def demoCtx : Ctx :=
  { Body := "ciphertext", ReqHeaders := [("Wechatpay-Serial", ["5157F09E"]), ("Wechatpay-Nonce", ["n1"])] }

/-- A fresh client in front of targets that answer by URL. -/
def downstream (answer : String → Except String resty.Response) : resty.Client :=
  { transport := fun _ request => answer request.URL }

/-- Targets that all answer 200. -/
def healthy : resty.Client := downstream (fun _ => .ok { StatusCode := 200, String := "ok" })

/-- Targets of which `https://a.example/n` answers 500 and the others 200. -/
def firstDown : resty.Client :=
  downstream (fun u =>
    if u = "https://a.example/n" then .ok { StatusCode := 500, String := "boom" }
    else .ok { StatusCode := 200, String := "ok" })

/-- A fresh client, which has no base URL: a request to the path `/cb` fails
in the client, for want of a scheme and a host; the other targets answer
200. -/
def noBaseURL : resty.Client :=
  downstream (fun u =>
    if u = "/cb" then .error "unsupported protocol scheme"
    else .ok { StatusCode := 200, String := "ok" })

/-- A configuration with the four mandatory keys set and the given
`forwards`. -/
def demoConfig (forwards : List String) : Config :=
  { Str := fun k =>
      if k = "wechat.publicKey" then "pub.pem"
      else if k = "wechat.apiV3Key" then "0123456789abcdef0123456789abcdef"
      else if k = "wechat.publicKeyID" then "PUB_KEY_ID_01"
      else if k = "address" then ":8080"
      else "",
    Flag := fun _ => false,
    Strings := fun k => if k = "forwards" then forwards else [] }

/-- Surroundings in which every startup step succeeds, with the given
`forwards` in `config.yml` and the given verifier. -/
def demoBoot (forwards : List String) (wechatHandler : WechatHandler) : Boot :=
  { Load := .ok (demoConfig forwards),
    LoadPublicKey := fun _ => .ok "public key",
    NewRSANotifyHandler := fun _ _ _ => .ok wechatHandler,
    Listen := fun _ => none,
    client := healthy,
    env := demoEnv }

/-! ## Lemmas on `url.parse` -/

namespace url

/-- `getSchemeFrom` run over the bytes of a scheme that is followed by a colon,
from an index that is not the first, ends at the colon. -/
theorem getSchemeFrom_colon (tail : List Char) :
    ∀ (cs pre : List Char), pre ≠ [] →
      (∀ b ∈ cs, (between 'a' 'z' b || between 'A' 'Z' b) = true
          ∨ (between '0' '9' b || b == '+' || b == '-' || b == '.') = true) →
      getSchemeFrom (pre ++ (cs ++ ':' :: tail)) pre.length (cs ++ ':' :: tail)
        = .ok (pre ++ cs, tail) := by
  intro cs
  induction cs with
  | nil =>
    intro pre hpre _
    have h1 : (between 'a' 'z' ':' || between 'A' 'Z' ':') = false := by decide
    have h2 : (between '0' '9' ':' || ':' == '+' || ':' == '-' || ':' == '.') = false := by decide
    have h3 : (pre.length == 0) = false := by
      cases pre with
      | nil => exact absurd rfl hpre
      | cons a l => rfl
    simp only [List.nil_append, getSchemeFrom, h1, h2, h3, beq_self_eq_true, if_true,
      Bool.false_eq_true, if_false, List.append_nil]
    simp
  | cons b cs ih =>
    intro pre hpre hcs
    have hb := hcs b (List.mem_cons_self b cs)
    have hrest : ∀ x ∈ cs, (between 'a' 'z' x || between 'A' 'Z' x) = true
        ∨ (between '0' '9' x || x == '+' || x == '-' || x == '.') = true :=
      fun x hx => hcs x (List.mem_cons_of_mem b hx)
    have hnext := ih (pre ++ [b]) (by simp) hrest
    have hlen : (pre ++ [b]).length = pre.length + 1 := by simp
    have hraw : pre ++ [b] ++ (cs ++ ':' :: tail) = pre ++ (b :: cs ++ ':' :: tail) := by simp
    have hres : pre ++ [b] ++ cs = pre ++ b :: cs := by simp
    rw [hlen, hraw, hres] at hnext
    have h3 : (pre.length == 0) = false := by
      cases pre with
      | nil => exact absurd rfl hpre
      | cons a l => rfl
    show getSchemeFrom (pre ++ (b :: cs ++ ':' :: tail)) pre.length (b :: (cs ++ ':' :: tail))
      = .ok (pre ++ b :: cs, tail)
    rw [getSchemeFrom]
    by_cases hl : (between 'a' 'z' b || between 'A' 'Z' b) = true
    · rw [if_pos hl]; exact hnext
    · rw [if_neg hl]
      have hd : (between '0' '9' b || b == '+' || b == '-' || b == '.') = true := by
        rcases hb with h | h
        · exact absurd h hl
        · exact h
      rw [if_pos hd, h3]
      simpa using hnext

/-- `getScheme` on a scheme followed by a colon: the scheme and what follows
the colon. -/
theorem getScheme_colon (s : Char) (ss tail : List Char)
    (hs : (between 'a' 'z' s || between 'A' 'Z' s) = true)
    (hss : ∀ b ∈ ss, (between 'a' 'z' b || between 'A' 'Z' b) = true
        ∨ (between '0' '9' b || b == '+' || b == '-' || b == '.') = true) :
    getScheme (s :: (ss ++ ':' :: tail)) = .ok (s :: ss, tail) := by
  unfold getScheme
  rw [getSchemeFrom, if_pos hs]
  exact getSchemeFrom_colon tail ss [s] (by simp) hss

/-- Cutting a lone final `?` off is the same as keeping what stands before the
first `?`. -/
theorem dropLast_eq_takeWhile : ∀ (l : List Char),
    l.getLast? = some '?' → l.count '?' = 1 → l.dropLast = l.takeWhile (fun b => b != '?')
  | [], h, _ => by simp at h
  | [a], h, _ => by
    simp at h
    subst h
    rfl
  | a :: b :: t, h, hc => by
    have hlast : (b :: t).getLast? = some '?' := by simpa [List.getLast?_cons_cons] using h
    have hmem : '?' ∈ b :: t := List.mem_of_getLast?_eq_some hlast
    have hpos : 0 < (b :: t).count '?' := List.count_pos_iff.mpr hmem
    by_cases ha : a = '?'
    · subst ha
      simp only [List.count_cons_self] at hc
      omega
    · have hc2 : (b :: t).count '?' = 1 := by
        rw [List.count_cons_of_ne (Ne.symm ha)] at hc
        exact hc
      have ih := dropLast_eq_takeWhile (b :: t) hlast hc2
      have hne : (a != '?') = true := by simpa using ha
      rw [List.dropLast_cons₂, ih]
      simp [List.takeWhile_cons, hne]

/-- What `parse` keeps as `rest` is what stands before the first `?`. -/
theorem rest_eq_takeWhile (l : List Char) :
    (if (l.getLast? == some '?' && l.count '?' == 1) = true then l.dropLast
      else l.takeWhile (fun b => b != '?')) = l.takeWhile (fun b => b != '?') := by
  split
  · rename_i h
    simp only [Bool.and_eq_true, beq_iff_eq] at h
    exact dropLast_eq_takeWhile l h.1 h.2
  · rfl

/-- `takeWhile` up to a separator that the first part lacks and that the second
part, if any, starts with. -/
theorem takeWhile_ne_append (sep : Char) : ∀ (l r : List Char),
    (∀ b ∈ l, b ≠ sep) → (r = [] ∨ r.head? = some sep) →
    (l ++ r).takeWhile (fun b => b != sep) = l
  | [], r, _, hr => by
    rcases hr with h | h
    · subst h; rfl
    · cases r with
      | nil => rfl
      | cons a t =>
        simp only [List.head?_cons, Option.some.injEq] at h
        subst h
        simp
  | a :: l, r, hl, hr => by
    have ha : (a != sep) = true := by simpa using hl a (List.mem_cons_self a l)
    have ih := takeWhile_ne_append sep l r (fun b hb => hl b (List.mem_cons_of_mem a hb)) hr
    simp only [List.cons_append, List.takeWhile_cons, ha, if_true, ih]

/-- `dropWhile` up to a separator that the first part lacks and that the second
part, if any, starts with. -/
theorem dropWhile_ne_append (sep : Char) : ∀ (l r : List Char),
    (∀ b ∈ l, b ≠ sep) → (r = [] ∨ r.head? = some sep) →
    (l ++ r).dropWhile (fun b => b != sep) = r
  | [], r, _, hr => by
    rcases hr with h | h
    · subst h; rfl
    · cases r with
      | nil => rfl
      | cons a t =>
        simp only [List.head?_cons, Option.some.injEq] at h
        subst h
        simp
  | a :: l, r, hl, hr => by
    have ha : (a != sep) = true := by simpa using hl a (List.mem_cons_self a l)
    have ih := dropWhile_ne_append sep l r (fun b hb => hl b (List.mem_cons_of_mem a hb)) hr
    simp only [List.cons_append, List.dropWhile_cons, ha, if_true, ih]

/-- A string made of a scheme, `://`, an authority that `parseAuthority`
accepts, a path that is empty or rooted and has valid percent escapes, and an
optional query, free of control bytes, is accepted by `parse`. -/
theorem parse_accepts_with_authority (pa : List Char → error) (s : Char)
    (ss authority path query : List Char)
    (hs : (between 'a' 'z' s || between 'A' 'Z' s) = true)
    (hss : ∀ b ∈ ss, (between 'a' 'z' b || between 'A' 'Z' b) = true
        ∨ (between '0' '9' b || b == '+' || b == '-' || b == '.') = true)
    (hauth : ∀ b ∈ authority, b ≠ '/' ∧ b ≠ '?')
    (hhost : pa authority = none)
    (hroot : path = [] ∨ path.head? = some '/')
    (hpath : ∀ b ∈ path, b ≠ '?')
    (hesc : unescapePath path = none)
    (hquery : query = [] ∨ query.head? = some '?')
    (hctl : stringContainsCTLByte
      (s :: (ss ++ ':' :: '/' :: '/' :: (authority ++ (path ++ query)))) = false) :
    parse pa (s :: (ss ++ ':' :: '/' :: '/' :: (authority ++ (path ++ query)))) true = none := by
  have hsch := getScheme_colon s ss ('/' :: '/' :: (authority ++ (path ++ query))) hs hss
  have hrest : ('/' :: '/' :: (authority ++ (path ++ query))).takeWhile (fun b => b != '?')
      = '/' :: '/' :: (authority ++ path) := by
    have h := takeWhile_ne_append '?' ('/' :: '/' :: (authority ++ path)) query
      (by
        intro b hb
        simp only [List.mem_cons, List.mem_append] at hb
        rcases hb with h | h | h | h
        · subst h; decide
        · subst h; decide
        · exact (hauth b h).2
        · exact hpath b h) hquery
    simpa using h
  have htake : (authority ++ path).takeWhile (fun b => b != '/') = authority :=
    takeWhile_ne_append '/' authority path (fun b hb => (hauth b hb).1) hroot
  have hdrop : (authority ++ path).dropWhile (fun b => b != '/') = path :=
    dropWhile_ne_append '/' authority path (fun b hb => (hauth b hb).1) hroot
  have hstar : (s :: (ss ++ ':' :: '/' :: '/' :: (authority ++ (path ++ query))) == ['*'])
      = false := by
    cases ss <;> simp
  have hrest2 := (rest_eq_takeWhile ('/' :: '/' :: (authority ++ (path ++ query)))).trans hrest
  unfold parse
  rw [hctl, hsch]
  simp only [Bool.false_eq_true, if_false, List.isEmpty_cons, Bool.false_and, hstar,
    hrest2, List.head?_cons, bne_self_eq_false, List.take_succ_cons,
    List.take_zero, beq_self_eq_true, Bool.not_false, Bool.true_or, Bool.and_self, if_true,
    List.drop_succ_cons, List.drop_zero, htake, hdrop, hhost, setPath, hesc]

/-- What `getSchemeFrom` returns with an empty scheme is the whole string. -/
theorem getSchemeFrom_empty (raw : List Char) : ∀ (cs : List Char) (i : Nat) (rest : List Char),
    getSchemeFrom raw i cs = .ok ([], rest) → rest = raw
  | [], i, rest, h => by
    simp only [getSchemeFrom, Except.ok.injEq, Prod.mk.injEq] at h
    exact h.2.symm
  | c :: cs, i, rest, h => by
    rw [getSchemeFrom] at h
    split at h
    · exact getSchemeFrom_empty raw cs (i + 1) rest h
    · split at h
      · split at h
        · simp only [Except.ok.injEq, Prod.mk.injEq] at h
          exact h.2.symm
        · exact getSchemeFrom_empty raw cs (i + 1) rest h
      · split at h
        · split at h
          · cases h
          · rename_i hi
            simp only [Except.ok.injEq, Prod.mk.injEq] at h
            have hi0 : i ≠ 0 := by simpa using hi
            have hraw : raw = [] := by
              cases raw with
              | nil => rfl
              | cons a l =>
                cases i with
                | zero => exact absurd rfl hi0
                | succ n => simp at h
            subst hraw
            simpa using h.2.symm
        · simp only [Except.ok.injEq, Prod.mk.injEq] at h
          exact h.2.symm

/-- The first byte of what stands before the first `?` is the first byte of
the string. -/
theorem head?_takeWhile (p : Char → Bool) (l : List Char) (c : Char)
    (h : (l.takeWhile p).head? = some c) : l.head? = some c := by
  cases l with
  | nil => simp at h
  | cons a t =>
    rw [List.takeWhile_cons] at h
    split at h
    · simpa using h
    · simp at h

/-- A string without scheme that is not `*` and does not start with `/` is
rejected by `parse` for a request URI. -/
theorem parse_rejects_without_scheme (pa : List Char → error) (raw : List Char)
    (hstar : raw ≠ ['*'])
    (hhead : raw.head? ≠ some '/')
    (hnone : ∀ scheme rest, getScheme raw = .ok (scheme, rest) → scheme = []) :
    parse pa raw true ≠ none := by
  have hstar2 : (raw == ['*']) = false := by simpa using hstar
  unfold parse
  split
  · simp
  · split
    · simp
    · rw [hstar2]
      simp only [Bool.false_eq_true, if_false]
      cases hg : getScheme raw with
      | error err => simp
      | ok p =>
        obtain ⟨scheme, rest0⟩ := p
        have hsc := hnone scheme rest0 hg
        subst hsc
        have hr : rest0 = raw := getSchemeFrom_empty raw raw 0 rest0 hg
        subst hr
        have hh : ((rest0.takeWhile (fun b => b != '?')).head? != some '/') = true := by
          simp only [bne_iff_ne, ne_eq]
          intro h
          exact hhead (head?_takeWhile _ rest0 '/' h)
        simp only [rest_eq_takeWhile, hh, List.isEmpty_nil, Bool.not_true, Bool.and_false,
          Bool.false_eq_true, if_false, Bool.and_self, if_true]
        simp

end url

/-! ## Lemmas on `forwardRequest` and the loop -/

/-- The error `forwardRequest` returns is `nil` on every path: on the two
failure paths it is the result of `JSON`, which is `nil`. -/
theorem forwardRequest_error (client : resty.Client) (c : Ctx) (targetURL : String) :
    (forwardRequest client c targetURL).2.2 = none := by
  unfold forwardRequest resty.Post
  dsimp only
  cases client.transport client.issued
      { Method := "POST", URL := targetURL, Body := c.Body, Header := c.ReqHeaders } with
  | error err => rfl
  | ok resp =>
    dsimp only
    split <;> rfl

/-- The log after `forwardRequest`: one more exchange, the POST of the inbound
body and headers to the target. -/
theorem forwardRequest_issued (client : resty.Client) (c : Ctx) (targetURL : String) :
    (forwardRequest client c targetURL).1.issued
      = client.issued ++ [{ request := forwarded c targetURL,
                            result := client.transport client.issued (forwarded c targetURL) }] := by
  unfold forwardRequest resty.Post forwarded
  dsimp only
  cases client.transport client.issued
      { Method := "POST", URL := targetURL, Body := c.Body, Header := c.ReqHeaders } with
  | error err => rfl
  | ok resp =>
    dsimp only
    split <;> rfl

/-- The context after `forwardRequest` still holds the inbound body and
headers. -/
theorem forwardRequest_inbound (client : resty.Client) (c : Ctx) (targetURL : String) :
    (forwardRequest client c targetURL).2.1.Body = c.Body
      ∧ (forwardRequest client c targetURL).2.1.ReqHeaders = c.ReqHeaders := by
  unfold forwardRequest resty.Post
  dsimp only
  cases client.transport client.issued
      { Method := "POST", URL := targetURL, Body := c.Body, Header := c.ReqHeaders } with
  | error err => exact ⟨rfl, rfl⟩
  | ok resp =>
    dsimp only
    split <;> exact ⟨rfl, rfl⟩

/-- The requests `forwardRequest` adds to the log. -/
theorem forwardRequest_requests (client : resty.Client) (c : Ctx) (targetURL : String) :
    (forwardRequest client c targetURL).1.issued.map (fun x => x.request)
      = client.issued.map (fun x => x.request) ++ [forwarded c targetURL] := by
  rw [forwardRequest_issued]; simp

/-- The loop never ends on an error, and sends one request per entry of the
list, in order. -/
theorem forwardEach_spec (c : Ctx) (forwards : List String) (client : resty.Client) :
    (forwardEach client c forwards).2.2 = none
      ∧ (forwardEach client c forwards).1.issued.map (fun x => x.request)
          = client.issued.map (fun x => x.request) ++ forwards.map (forwarded c)
      ∧ (forwardEach client c forwards).2.1.Body = c.Body
      ∧ (forwardEach client c forwards).2.1.ReqHeaders = c.ReqHeaders := by
  suffices h : ∀ (c0 c : Ctx) (client : resty.Client),
      c.Body = c0.Body → c.ReqHeaders = c0.ReqHeaders →
      (forwardEach client c forwards).2.2 = none
        ∧ (forwardEach client c forwards).1.issued.map (fun x => x.request)
            = client.issued.map (fun x => x.request) ++ forwards.map (forwarded c0)
        ∧ (forwardEach client c forwards).2.1.Body = c0.Body
        ∧ (forwardEach client c forwards).2.1.ReqHeaders = c0.ReqHeaders from
    h c c client rfl rfl
  intro c0
  induction forwards with
  | nil =>
    intro c client hb hh
    simp [forwardEach, hb, hh]
  | cons f fs ih =>
    intro c client hb hh
    have herr := forwardRequest_error client c f
    have hreq := forwardRequest_requests client c f
    have hin := forwardRequest_inbound client c f
    unfold forwardEach
    rcases hfr : forwardRequest client c f with ⟨client1, c1, e⟩
    rw [hfr] at herr hreq hin
    dsimp only at herr hreq hin
    subst herr
    dsimp only
    have h := ih c1 client1 (hin.1.trans hb) (hin.2.trans hh)
    refine ⟨h.1, ?_, h.2.2.1, h.2.2.2⟩
    rw [h.2.1, hreq]
    have hf : forwarded c f = forwarded c0 f := by simp [forwarded, hb, hh]
    simp [hf]

/-! ## Lemmas on the handler -/

/-- `SendStatus` with 204 leaves status 204 and returns `nil`; what fasthttp
then writes is a 204 without body. -/
theorem SendStatus_NoContent (c : Ctx) :
    (fiber.SendStatus c fiber.StatusNoContent).2 = none
      ∧ fasthttp.written (fiber.SendStatus c fiber.StatusNoContent).1.Response
          = { StatusCode := 204, Body := .text "" } := by
  unfold fiber.SendStatus
  dsimp only
  split <;> exact ⟨rfl, rfl⟩

/-- A run on a verified notification with `Attach` present: the handler
returns `nil`, the provider is sent a 204 without body, and the requests
sent are the single one to `attach` when `url.ParseRequestURI` accepts it,
one per entry of `forwards` otherwise. -/
theorem notify_verified (env : Env) (wechatHandler : WechatHandler) (client : resty.Client)
    (forwards : List String) (c : Ctx) (req : HttpRequest) (t : Transaction) (attach : String)
    (hconv : env.ConvertRequest c = .ok req)
    (hver : wechatHandler.ParseNotifyRequest req = .ok t)
    (hat : t.Attach = some attach) :
    (notify env wechatHandler client forwards c).completion = .returned none
      ∧ (notify env wechatHandler client forwards c).reply
          = some { StatusCode := 204, Body := .text "" }
      ∧ (notify env wechatHandler client forwards c).client.issued.map (fun x => x.request)
          = client.issued.map (fun x => x.request)
              ++ (if url.ParseRequestURI env.parseAuthority attach = none then [attach]
                  else forwards).map (forwarded c) := by
  have hss : ∀ cx : Ctx, (fiber.SendStatus cx fiber.StatusNoContent).2 = none :=
    fun cx => (SendStatus_NoContent cx).1
  have hsw : ∀ cx : Ctx, fasthttp.written (fiber.SendStatus cx fiber.StatusNoContent).1.Response
      = { StatusCode := 204, Body := .text "" } := fun cx => (SendStatus_NoContent cx).2
  unfold notify
  simp only [hconv, hver, hat]
  cases hp : url.ParseRequestURI env.parseAuthority attach with
  | none =>
    dsimp only
    simp only [forwardRequest_error, hss]
    refine ⟨trivial, ?_, ?_⟩
    · simp only [Run.reply, hsw]
    · rw [forwardRequest_requests]
      simp
  | some e =>
    dsimp only
    have hs := forwardEach_spec c forwards client
    simp only [hs.1, hss]
    refine ⟨trivial, ?_, ?_⟩
    · simp only [Run.reply, hsw]
    · rw [hs.2.1]
      simp

/-- A run on a request whose conversion or verification fails, or whose
transaction has no `Attach`, sends nothing. -/
theorem notify_issued_of_no_attach (env : Env) (wechatHandler : WechatHandler)
    (client : resty.Client) (forwards : List String) (c : Ctx)
    (h : ∀ req t attach, env.ConvertRequest c = .ok req →
      wechatHandler.ParseNotifyRequest req = .ok t → t.Attach ≠ some attach) :
    (notify env wechatHandler client forwards c).client.issued = client.issued := by
  unfold notify
  cases hconv : env.ConvertRequest c with
  | error err => rfl
  | ok req =>
    dsimp only
    cases hver : wechatHandler.ParseNotifyRequest req with
    | error err => rfl
    | ok t =>
      dsimp only
      cases hat : t.Attach with
      | none => rfl
      | some attach => exact absurd hat (h req t attach hconv hver)

/-! ## The claims -/

/-- C1 (fails on the code): a verified notification whose `attach` is an
absolute URL, and a forward to it that ends in a transport error.  The
forward is the only one issued and it failed, yet the provider is sent
status 204: `forwardRequest` returns the `nil` of `JSON`, so the handler goes
on to `SendStatus(204)`. -/
theorem reply_204_after_transport_error :
    (notify demoEnv (verifiedWith (some "https://shop.example/cb"))
        (downstream (fun _ => .error "connection refused")) ["https://a.example/n"] demoCtx).client.issued
      = [{ request := forwarded demoCtx "https://shop.example/cb",
           result := .error "connection refused" }]
    ∧ succeeded (.error "connection refused") = false
    ∧ (notify demoEnv (verifiedWith (some "https://shop.example/cb"))
        (downstream (fun _ => .error "connection refused")) ["https://a.example/n"] demoCtx).reply
      = some { StatusCode := 204, Body := .text "" } := by
  decide

/-- C2: when `ParseNotifyRequest` returns an error, the handler returns to
fiber with status 500 and the JSON body of code `FAIL` whose message is the
text of that error, which is what the provider is sent, and the log of the
client is as before: no forward is issued. -/
theorem verification_error_is_500_without_forward (env : Env) (wechatHandler : WechatHandler)
    (client : resty.Client) (forwards : List String) (c : Ctx) (req : HttpRequest) (err : String)
    (hconv : env.ConvertRequest c = .ok req)
    (hver : wechatHandler.ParseNotifyRequest req = .error err) :
    (notify env wechatHandler client forwards c).completion = .returned none
      ∧ (notify env wechatHandler client forwards c).reply
          = some { StatusCode := 500, Body := .json [("code", "FAIL"), ("message", err)] }
      ∧ (notify env wechatHandler client forwards c).client.issued = client.issued := by
  unfold notify
  simp only [hconv, hver]
  refine ⟨?_, ?_, ?_⟩ <;> trivial

/-- Witness of C2: a request the verifier rejects with `signature mismatch`. -/
theorem verification_error_witness :
    demoEnv.ConvertRequest demoCtx
        = .ok { Body := demoCtx.Body, Header := demoCtx.ReqHeaders }
      ∧ (rejecting "signature mismatch").ParseNotifyRequest
          { Body := demoCtx.Body, Header := demoCtx.ReqHeaders } = .error "signature mismatch"
      ∧ (notify demoEnv (rejecting "signature mismatch") healthy ["https://a.example/n"]
            demoCtx).completion = .returned none
      ∧ (notify demoEnv (rejecting "signature mismatch") healthy ["https://a.example/n"]
            demoCtx).reply
          = some { StatusCode := 500,
                   Body := .json [("code", "FAIL"), ("message", "signature mismatch")] }
      ∧ (notify demoEnv (rejecting "signature mismatch") healthy ["https://a.example/n"]
            demoCtx).client.issued = healthy.issued :=
  ⟨rfl, rfl,
    verification_error_is_500_without_forward demoEnv (rejecting "signature mismatch") healthy
      ["https://a.example/n"] demoCtx { Body := demoCtx.Body, Header := demoCtx.ReqHeaders }
      "signature mismatch" rfl rfl⟩

/-- C3 (fails on the code): a verified notification routed to the static list
of two targets, the first of which answers 500.  The first forward is the
first that fails, and the second target is contacted all the same. -/
theorem second_target_contacted_after_failure :
    url.ParseRequestURI demoEnv.parseAuthority "" ≠ none
    ∧ (notify demoEnv (verifiedWith (some "")) firstDown
        ["https://a.example/n", "https://b.example/n"] demoCtx).client.issued
      = [{ request := forwarded demoCtx "https://a.example/n",
           result := .ok { StatusCode := 500, String := "boom" } },
         { request := forwarded demoCtx "https://b.example/n",
           result := .ok { StatusCode := 200, String := "ok" } }] := by
  decide

/-- C4 (fails on the code): a verified notification with an empty `attach` and
one static target, which answers 503.  `forwardRequest` leaves status 502
with the JSON body that carries the downstream status and body, but the
handler then sets status 204 over it, and a 204 is written without body. -/
theorem reply_204_after_downstream_503 :
    (forwardRequest (downstream (fun _ => .ok { StatusCode := 503, String := "down" }))
        demoCtx "https://a.example/n").2.1.Response
      = { StatusCode := 502,
          Body := .json [("code", "FAIL"),
                         ("message", "target server responded with status 503: down")] }
    ∧ (notify demoEnv (verifiedWith (some ""))
        (downstream (fun _ => .ok { StatusCode := 503, String := "down" }))
        ["https://a.example/n"] demoCtx).c.Response
      = { StatusCode := 204,
          Body := .json [("code", "FAIL"),
                         ("message", "target server responded with status 503: down")] }
    ∧ (notify demoEnv (verifiedWith (some ""))
        (downstream (fun _ => .ok { StatusCode := 503, String := "down" }))
        ["https://a.example/n"] demoCtx).reply
      = some { StatusCode := 204, Body := .text "" } := by
  decide

/-- C5 (fails as stated): `attach` is `http://ex%41mple.com/cb`, an absolute
URL that is well formed by RFC 3986, whose host may hold percent escapes.
`getScheme` finds the scheme `http`, but `parseHost` rejects a percent escape
of an ASCII byte, so `url.ParseRequestURI` returns an error: the forward goes
to the target of the static list and none goes to `attach`. -/
theorem percent_escaped_host_goes_to_static_list :
    url.getScheme "http://ex%41mple.com/cb".toList
      = .ok ("http".toList, "//ex%41mple.com/cb".toList)
    ∧ url.ParseRequestURI netEnv.parseAuthority "http://ex%41mple.com/cb" ≠ none
    ∧ (notify netEnv (verifiedWith (some "http://ex%41mple.com/cb")) healthy
        ["https://a.example/n"] demoCtx).client.issued
      = [{ request := forwarded demoCtx "https://a.example/n",
           result := .ok { StatusCode := 200, String := "ok" } }] := by
  decide

/-- C5 (amended): for a verified notification whose `attach` is
`scheme ++ "://" ++ authority ++ path ++ query`, where the scheme is a letter
followed by letters, digits, `+`, `-` or `.`, the authority holds no `/` and
no `?` and is accepted by `parseAuthority` of `net/url`, the path is empty or
starts with `/`, holds no `?` and has two hexadecimal digits after each `%`,
the query is empty or starts with `?`, and no byte is a control byte: the
run adds exactly one exchange to the log of the client, the POST to `attach`,
whatever its result and whatever the static list holds. -/
theorem attach_gets_the_single_forward (env : Env) (wechatHandler : WechatHandler)
    (client : resty.Client) (forwards : List String) (c : Ctx) (req : HttpRequest)
    (t : Transaction) (scheme authority path query : String)
    (hconv : env.ConvertRequest c = .ok req)
    (hver : wechatHandler.ParseNotifyRequest req = .ok t)
    (hat : t.Attach = some (scheme ++ "://" ++ authority ++ path ++ query))
    (hscheme : url.validScheme scheme.toList = true)
    (hauth : authority.toList.all (fun b => b != '/' && b != '?') = true)
    (hhost : env.parseAuthority authority.toList = none)
    (hroot : path.toList = [] ∨ path.toList.head? = some '/')
    (hpath : path.toList.all (fun b => b != '?') = true)
    (hesc : url.unescapePath path.toList = none)
    (hquery : query.toList = [] ∨ query.toList.head? = some '?')
    (hctl : url.stringContainsCTLByte
      (scheme ++ "://" ++ authority ++ path ++ query).toList = false) :
    (notify env wechatHandler client forwards c).client.issued
      = client.issued
          ++ [{ request := { Method := "POST",
                             URL := scheme ++ "://" ++ authority ++ path ++ query,
                             Body := c.Body, Header := c.ReqHeaders },
                result := client.transport client.issued
                  { Method := "POST", URL := scheme ++ "://" ++ authority ++ path ++ query,
                    Body := c.Body, Header := c.ReqHeaders } }] := by
  have hlist : (scheme ++ "://" ++ authority ++ path ++ query).toList
      = scheme.toList ++ ':' :: '/' :: '/' :: (authority.toList ++ (path.toList ++ query.toList)) := by
    have h3 : "://".data = [':', '/', '/'] := rfl
    simp only [String.toList, String.data_append, h3, List.append_assoc, List.cons_append,
      List.nil_append]
  have hurl : url.ParseRequestURI env.parseAuthority
      (scheme ++ "://" ++ authority ++ path ++ query) = none := by
    unfold url.ParseRequestURI
    rw [hlist] at hctl ⊢
    cases hsl : scheme.toList with
    | nil => rw [hsl] at hscheme; simp [url.validScheme] at hscheme
    | cons s ss =>
      rw [hsl] at hscheme hctl
      simp only [url.validScheme, Bool.and_eq_true, List.all_eq_true] at hscheme
      refine url.parse_accepts_with_authority env.parseAuthority s ss authority.toList
        path.toList query.toList hscheme.1 ?_ ?_ hhost hroot ?_ hesc hquery hctl
      · intro b hb
        have h := hscheme.2 b hb
        simp only [Bool.or_eq_true] at h ⊢
        rcases h with h | h
        · exact Or.inl h
        · exact Or.inr h
      · intro b hb
        have h := (List.all_eq_true.mp hauth) b hb
        simpa using h
      · intro b hb
        have h := (List.all_eq_true.mp hpath) b hb
        simpa using h
  have hss : ∀ cx : Ctx, (fiber.SendStatus cx fiber.StatusNoContent).2 = none :=
    fun cx => (SendStatus_NoContent cx).1
  unfold notify
  simp only [hconv, hver, hat, hurl]
  simp only [forwardRequest_error, hss]
  exact forwardRequest_issued client c _

/-- Witness of C5 (amended): `attach` is `https://shop.example/cb?order=7`,
checked with the `parseAuthority` of `net/url`; its target answers 500, and
the static list holds two other targets. -/
theorem attach_single_forward_witness :
    netEnv.ConvertRequest demoCtx = .ok { Body := demoCtx.Body, Header := demoCtx.ReqHeaders }
      ∧ (verifiedWith (some ("https" ++ "://" ++ "shop.example" ++ "/cb" ++ "?order=7"))).ParseNotifyRequest
          { Body := demoCtx.Body, Header := demoCtx.ReqHeaders }
          = .ok { Attach := some ("https" ++ "://" ++ "shop.example" ++ "/cb" ++ "?order=7") }
      ∧ url.validScheme "https".toList = true
      ∧ "shop.example".toList.all (fun b => b != '/' && b != '?') = true
      ∧ netEnv.parseAuthority "shop.example".toList = none
      ∧ ("/cb".toList = [] ∨ "/cb".toList.head? = some '/')
      ∧ "/cb".toList.all (fun b => b != '?') = true
      ∧ url.unescapePath "/cb".toList = none
      ∧ ("?order=7".toList = [] ∨ "?order=7".toList.head? = some '?')
      ∧ url.stringContainsCTLByte
          ("https" ++ "://" ++ "shop.example" ++ "/cb" ++ "?order=7").toList = false
      ∧ (notify netEnv
            (verifiedWith (some ("https" ++ "://" ++ "shop.example" ++ "/cb" ++ "?order=7")))
            (downstream (fun _ => .ok { StatusCode := 500, String := "boom" }))
            ["https://a.example/n", "https://b.example/n"] demoCtx).client.issued
          = [] ++ [{ request := { Method := "POST",
                                  URL := "https" ++ "://" ++ "shop.example" ++ "/cb" ++ "?order=7",
                                  Body := demoCtx.Body, Header := demoCtx.ReqHeaders },
                     result := .ok { StatusCode := 500, String := "boom" } }] :=
  ⟨rfl, rfl, by decide, by decide, by decide, Or.inr (by decide), by decide, by decide,
    Or.inr (by decide), by decide,
    attach_gets_the_single_forward netEnv
      (verifiedWith (some ("https" ++ "://" ++ "shop.example" ++ "/cb" ++ "?order=7")))
      (downstream (fun _ => .ok { StatusCode := 500, String := "boom" }))
      ["https://a.example/n", "https://b.example/n"] demoCtx
      { Body := demoCtx.Body, Header := demoCtx.ReqHeaders }
      { Attach := some ("https" ++ "://" ++ "shop.example" ++ "/cb" ++ "?order=7") }
      "https" "shop.example" "/cb" "?order=7" rfl rfl rfl (by decide) (by decide) (by decide)
      (Or.inr (by decide)) (by decide) (by decide) (Or.inr (by decide)) (by decide)⟩

/-- C6 (fails on the code): a verified notification without `attach` (the
`Attach` pointer is nil).  The handler panics on `*transaction.Attach` and no
target of the static list is attempted. -/
theorem nil_attach_panics :
    (notify demoEnv (verifiedWith none) healthy
        ["https://a.example/n", "https://b.example/n"] demoCtx).completion
      = .panicked "runtime error: invalid memory address or nil pointer dereference"
    ∧ (notify demoEnv (verifiedWith none) healthy
        ["https://a.example/n", "https://b.example/n"] demoCtx).client.issued = [] := by
  decide

/-- C7 (fails as stated): `attach` is the rooted path `/cb`, in which
`getScheme` finds no scheme.  `url.ParseRequestURI` accepts it, so the single
forward goes to `/cb` (where it fails in the client, which has no base URL)
and the target of the static list is not contacted. -/
theorem rooted_path_attach_is_the_target :
    url.getScheme "/cb".toList = .ok ([], "/cb".toList)
    ∧ url.ParseRequestURI demoEnv.parseAuthority "/cb" = none
    ∧ (notify demoEnv (verifiedWith (some "/cb")) noBaseURL ["https://a.example/n"]
        demoCtx).client.issued
      = [{ request := forwarded demoCtx "/cb",
           result := .error "unsupported protocol scheme" }] := by
  decide

/-- C7 (amended): for a verified notification whose `attach` is present, has
no scheme (`getScheme` finds none in it), is not `*` and does not start with
`/`, the targets contacted are an initial segment of the static list, in
configured order, each with the inbound body and headers, and they are the
whole list when every forward of the run succeeded: `attach` is no target of
its own. -/
theorem rejected_attach_goes_to_static_list (env : Env) (wechatHandler : WechatHandler)
    (client : resty.Client) (forwards : List String) (c : Ctx) (req : HttpRequest)
    (t : Transaction) (attach : String)
    (hconv : env.ConvertRequest c = .ok req)
    (hver : wechatHandler.ParseNotifyRequest req = .ok t)
    (hat : t.Attach = some attach)
    (hnone : ∀ scheme rest, url.getScheme attach.toList = .ok (scheme, rest) → scheme = [])
    (hstar : attach ≠ "*")
    (hhead : attach.toList.head? ≠ some '/') :
    ∃ contacted : List String, contacted <+: forwards
      ∧ (notify env wechatHandler client forwards c).client.issued.map (fun x => x.request)
          = client.issued.map (fun x => x.request) ++ contacted.map (forwarded c)
      ∧ ((∀ x ∈ (notify env wechatHandler client forwards c).client.issued.drop
              client.issued.length, succeeded x.result = true) → contacted = forwards) := by
  have hstar2 : attach.toList ≠ ['*'] := by
    intro h
    apply hstar
    have h1 : attach = String.mk attach.toList := rfl
    rw [h1, h]
  have hrej : url.ParseRequestURI env.parseAuthority attach ≠ none :=
    url.parse_rejects_without_scheme env.parseAuthority attach.toList hstar2 hhead hnone
  refine ⟨forwards, List.prefix_refl forwards, ?_, fun _ => rfl⟩
  have h := (notify_verified env wechatHandler client forwards c req t attach hconv hver hat).2.2
  rw [h, if_neg hrej]

/-- Witness of C7 (amended): `attach` is `cb`, the static list has two
targets. -/
theorem rejected_attach_witness :
    demoEnv.ConvertRequest demoCtx
        = .ok { Body := demoCtx.Body, Header := demoCtx.ReqHeaders }
      ∧ (verifiedWith (some "cb")).ParseNotifyRequest
          { Body := demoCtx.Body, Header := demoCtx.ReqHeaders } = .ok { Attach := some "cb" }
      ∧ url.getScheme "cb".toList = .ok ([], "cb".toList)
      ∧ "cb" ≠ "*"
      ∧ "cb".toList.head? ≠ some '/'
      ∧ ∃ contacted : List String,
          contacted <+: ["https://a.example/n", "https://b.example/n"]
          ∧ (notify demoEnv (verifiedWith (some "cb")) healthy
                ["https://a.example/n", "https://b.example/n"] demoCtx).client.issued.map
                (fun x => x.request)
              = healthy.issued.map (fun x => x.request) ++ contacted.map (forwarded demoCtx)
          ∧ ((∀ x ∈ (notify demoEnv (verifiedWith (some "cb")) healthy
                  ["https://a.example/n", "https://b.example/n"] demoCtx).client.issued.drop
                  healthy.issued.length, succeeded x.result = true)
              → contacted = ["https://a.example/n", "https://b.example/n"]) :=
  ⟨rfl, rfl, by decide, by decide, by decide,
    rejected_attach_goes_to_static_list demoEnv (verifiedWith (some "cb")) healthy
      ["https://a.example/n", "https://b.example/n"] demoCtx
      { Body := demoCtx.Body, Header := demoCtx.ReqHeaders } { Attach := some "cb" } "cb"
      rfl rfl rfl
      (fun scheme rest h => by
        have hg : url.getScheme "cb".toList = .ok ([], "cb".toList) := by decide
        rw [hg] at h
        cases h
        rfl)
      (by decide) (by decide)⟩

/-- C8 (fails on the code): a verified notification without `attach`, with an
empty static list, so that no forward fails.  The handler panics and the
provider gets no response, neither a 204 nor any other. -/
theorem no_reply_when_attach_is_nil :
    (notify demoEnv (verifiedWith none) healthy [] demoCtx).client.issued = []
    ∧ (notify demoEnv (verifiedWith none) healthy [] demoCtx).reply = none := by
  decide

/-- C10 (fails as stated): `main` serves a configuration whose `forwards` list
is empty, and on a verified notification with an empty `attach` the handler
of that application issues no forward and the provider is sent 204. -/
theorem empty_forwards_accepted_at_startup :
    (main (demoBoot [] (verifiedWith (some "")))).server?.map (fun srv => srv.forwards) = some []
    ∧ (main (demoBoot [] (verifiedWith (some "")))).server?.map
        (fun srv => (srv.handle demoCtx).client.issued) = some []
    ∧ (main (demoBoot [] (verifiedWith (some "")))).server?.map
        (fun srv => (srv.handle demoCtx).reply)
      = some (some { StatusCode := 204, Body := .text "" }) := by
  decide

/-- What `main` does with the `forwards` list: it hands it to the handler and
looks at nothing in it. -/
theorem main_withForwards (boot : Boot) (srv : Server) (forwards : List String)
    (h : main boot = .serving srv) :
    main (boot.withForwards forwards) = .serving { srv with forwards := forwards } := by
  unfold main at h ⊢
  unfold Boot.withForwards
  cases hl : boot.Load with
  | error err => rw [hl] at h; cases h
  | ok config =>
    rw [hl] at h
    have hm : ∀ k, (config.withStrings "forwards" forwards).MustString k = config.MustString k :=
      fun k => rfl
    simp only [Except.map, hm] at h ⊢
    cases h1 : config.MustString "wechat.publicKey" with
    | error p => rw [h1] at h; cases h
    | ok path =>
      rw [h1] at h
      simp only at h ⊢
      cases h2 : boot.LoadPublicKey path with
      | error err => rw [h2] at h; cases h
      | ok key =>
        rw [h2] at h
        simp only at h ⊢
        cases h3 : config.MustString "wechat.apiV3Key" with
        | error p => rw [h3] at h; cases h
        | ok apiV3Key =>
          rw [h3] at h
          simp only at h ⊢
          cases h4 : config.MustString "wechat.publicKeyID" with
          | error p => rw [h4] at h; cases h
          | ok publicKeyID =>
            rw [h4] at h
            simp only at h ⊢
            cases h5 : boot.NewRSANotifyHandler apiV3Key publicKeyID key with
            | error err => rw [h5] at h; cases h
            | ok wh =>
              rw [h5] at h
              simp only at h ⊢
              cases h6 : config.MustString "address" with
              | error p => rw [h6] at h; cases h
              | ok address =>
                rw [h6] at h
                simp only at h ⊢
                cases h7 : boot.Listen address with
                | some err => rw [h7] at h; cases h
                | none =>
                  rw [h7] at h
                  simp only at h ⊢
                  cases h
                  simp [Config.withStrings]

/-- C10 (amended): `main` does not look into the `forwards` list, so a
configuration it serves is served as well with any other list, the empty one
included; and for the application it serves, a verified notification whose
`attach` is present gets at least one forward whenever `url.ParseRequestURI`
accepts `attach` or the static list is not empty. -/
theorem forward_attempted_unless_list_empty (boot : Boot) (srv : Server) (c : Ctx)
    (req : HttpRequest) (t : Transaction) (attach : String)
    (hstart : main boot = .serving srv)
    (hconv : srv.env.ConvertRequest c = .ok req)
    (hver : srv.wechatHandler.ParseNotifyRequest req = .ok t)
    (hat : t.Attach = some attach)
    (hsome : url.ParseRequestURI srv.env.parseAuthority attach = none ∨ srv.forwards ≠ []) :
    (∀ forwards : List String,
        main (boot.withForwards forwards) = .serving { srv with forwards := forwards })
      ∧ ∃ first rest, (srv.handle c).client.issued.map (fun x => x.request)
          = srv.client.issued.map (fun x => x.request) ++ first :: rest := by
  refine ⟨fun forwards => main_withForwards boot srv forwards hstart, ?_⟩
  have h := (notify_verified srv.env srv.wechatHandler srv.client srv.forwards c req t attach
    hconv hver hat).2.2
  unfold Server.handle
  rw [h]
  rcases hsome with hp | hne
  · rw [if_pos hp]
    exact ⟨forwarded c attach, [], rfl⟩
  · by_cases hp : url.ParseRequestURI srv.env.parseAuthority attach = none
    · rw [if_pos hp]
      exact ⟨forwarded c attach, [], rfl⟩
    · rw [if_neg hp]
      cases hf : srv.forwards with
      | nil => exact absurd hf hne
      | cons f fs => exact ⟨forwarded c f, fs.map (forwarded c), rfl⟩

/-- Witness of C10 (amended): a served configuration with one static target,
and a verified notification with an empty `attach`. -/
theorem forward_attempted_witness :
    main (demoBoot ["https://a.example/n"] (verifiedWith (some "")))
        = .serving { env := demoEnv, wechatHandler := verifiedWith (some ""), client := healthy,
                     forwards := ["https://a.example/n"], address := ":8080" }
      ∧ demoEnv.ConvertRequest demoCtx
          = .ok { Body := demoCtx.Body, Header := demoCtx.ReqHeaders }
      ∧ (verifiedWith (some "")).ParseNotifyRequest
          { Body := demoCtx.Body, Header := demoCtx.ReqHeaders } = .ok { Attach := some "" }
      ∧ (url.ParseRequestURI demoEnv.parseAuthority "" = none
          ∨ ["https://a.example/n"] ≠ ([] : List String))
      ∧ (∀ forwards : List String,
          main ((demoBoot ["https://a.example/n"] (verifiedWith (some ""))).withForwards forwards)
            = .serving { env := demoEnv, wechatHandler := verifiedWith (some ""),
                         client := healthy, forwards := forwards, address := ":8080" })
      ∧ ∃ first rest,
          (Server.handle { env := demoEnv, wechatHandler := verifiedWith (some ""),
                           client := healthy, forwards := ["https://a.example/n"],
                           address := ":8080" } demoCtx).client.issued.map (fun x => x.request)
            = healthy.issued.map (fun x => x.request) ++ first :: rest :=
  ⟨rfl, rfl, rfl, Or.inr (by decide),
    forward_attempted_unless_list_empty
      (demoBoot ["https://a.example/n"] (verifiedWith (some "")))
      { env := demoEnv, wechatHandler := verifiedWith (some ""), client := healthy,
        forwards := ["https://a.example/n"], address := ":8080" }
      demoCtx { Body := demoCtx.Body, Header := demoCtx.ReqHeaders } { Attach := some "" } ""
      rfl rfl rfl rfl (Or.inr (by decide))⟩

end Gateway
